import Mathlib

set_option maxHeartbeats 1000000

namespace SummaryIndex

/-! Shallow embedding of crates/semantic_index/src/summary_index.rs.

Mtimes (std::time::SystemTime) are modelled as optional naturals, file paths
and BLAKE3 hex digests as strings, and the two heed database tables as
association lists with put-replaces-existing semantics (matching LMDB put).
The BLAKE3 hash and the file system are abstract parameters (`hash`, `fs`);
the completion provider is a function from a request to `Option String`, with
`none` standing for a provider error.  The pipeline stages, which the source
connects with bounded channels and runs concurrently, are composed here
sequentially in dataflow order with a single persistence batch: this is the
schedule in which the persister's chunks_timeout(4096, 2 seconds) buffer has
not yet been committed while the earlier stages run, i.e. the behaviour of any
run that finishes within one batch window. -/

abbrev Mtime := Option Nat

/-- A live worktree entry as seen by the scanner (project::Entry). -/
structure Entry where
  path : String
  size : Nat
  mtime : Mtime
  isFile : Bool
  deriving DecidableEq, Repr

/-- Value type of the file_digests table (struct FileDigest in the source). -/
structure FileDigest where
  mtime : Mtime
  digest : String
  deriving DecidableEq, Repr

/-- Produced by the digester, consumed by the cache checker / summarizer. -/
structure UnsummarizedFile where
  path : String
  mtime : Mtime
  digest : String
  contents : String
  deriving DecidableEq, Repr

/-- Produced by the summarizer, consumed by the persister.  `path` is the
display string of the file path (summarize_files: file.path.display().to_string()). -/
structure SummarizedFile where
  path : String
  mtime : Mtime
  digest : String
  summary : String
  deriving DecidableEq, Repr

/-- One heed database table: an association list from string keys to values,
where put replaces any existing binding for the key (LMDB put semantics). -/
abbrev Table (α : Type) := List (String × α)

def tableGet {α : Type} (t : Table α) (k : String) : Option α :=
  (t.find? (fun kv => kv.1 == k)).map (·.2)

def tablePut {α : Type} (t : Table α) (k : String) (v : α) : Table α :=
  (k, v) :: t.filter (fun kv => kv.1 != k)

/-- Number of records stored under key `k` (an LMDB table without DUP_SORT has
at most one; `tablePut` maintains that). -/
def tableCountKey {α : Type} (t : Table α) (k : String) : Nat :=
  (t.filter (fun kv => kv.1 == k)).length

/-- The two tables of the summary index database. -/
structure Store where
  file_digests : Table FileDigest
  summaries : Table String
  deriving DecidableEq, Repr

/-- db_key_for_path: the file path with every path separator replaced by a
null byte (`path.to_string_lossy().replace('/', "\0")`). -/
def db_key_for_path (path : String) : String :=
  String.mk (path.toList.map (fun c => if c = '/' then Char.ofNat 0 else c))

/-- Modelled from the spec: `SummaryBacklog` lives in summary_backlog.rs, which
is not among the provided sources.  Spec section 4.1: `insert` upserts an entry,
replacing any prior entry for the same path; `needs_drain` is true once the
accumulated count or accumulated size crosses a configured threshold; `drain`
atomically empties the backlog and returns all entries as (path, mtime). -/
structure SummaryBacklog where
  maxCount : Nat
  maxBytes : Nat
  files : List (String × Nat × Mtime)
  deriving DecidableEq, Repr

def SummaryBacklog.insert (b : SummaryBacklog) (path : String) (size : Nat)
    (mtime : Mtime) : SummaryBacklog :=
  { b with files := b.files.filter (fun f => f.1 != path) ++ [(path, size, mtime)] }

def SummaryBacklog.totalBytes (b : SummaryBacklog) : Nat :=
  (b.files.map (fun f => f.2.1)).sum

def SummaryBacklog.needs_drain (b : SummaryBacklog) : Bool :=
  decide (b.maxCount < b.files.length) || decide (b.maxBytes < b.totalBytes)

def SummaryBacklog.drain (b : SummaryBacklog) : SummaryBacklog × List (String × Mtime) :=
  ({ b with files := [] }, b.files.map (fun f => (f.1, f.2.2)))

/-- Result of one `add_to_backlog` call.  `emitted` is the returned
`Vec<(Arc<Path>, Option<SystemTime>)>` (nonempty only when the backlog was
drained); `inserted` records whether `backlog.insert` was called, which the
source determines by the mtime comparison. -/
structure AddResult where
  backlog : SummaryBacklog
  emitted : List (String × Mtime)
  inserted : Bool
  deriving Repr

/-- add_to_backlog: look the entry up in the file_digests table under
`db_key_for_path`; if the entry's mtime differs from the saved record's mtime
(a missing record contributing `none`), insert it into the backlog, and if the
backlog then needs draining, drain it and return the drained entries. -/
def add_to_backlog (backlog : SummaryBacklog) (digest_db : Table FileDigest)
    (entry : Entry) : AddResult :=
  let entry_db_key := db_key_for_path entry.path
  let opt_saved_digest := tableGet digest_db entry_db_key
  if entry.mtime ≠ opt_saved_digest.bind (fun d => d.mtime) then
    let b := backlog.insert entry.path entry.size entry.mtime
    if b.needs_drain then
      { backlog := (b.drain).1, emitted := (b.drain).2, inserted := true }
    else
      { backlog := b, emitted := [], inserted := true }
  else
    { backlog := backlog, emitted := [], inserted := false }

/-- Accumulated result of a scan task: the final backlog, the batches sent on
the bounded channel to the digester, and (instrumentation) the paths for which
`backlog.insert` was called during the scan. -/
structure ScanResult where
  backlog : SummaryBacklog
  batches : List (List (String × Mtime))
  insertedPaths : List String
  deriving Repr

/-- scan_entries: iterate every file entry of the worktree snapshot
(worktree.files), call add_to_backlog under one read transaction (so the
digest table is fixed for the whole scan), and send each nonempty drained
batch downstream.  There is no final drain after the loop. -/
def scan_entries (digest_db : Table FileDigest) (backlog : SummaryBacklog) :
    List Entry → ScanResult
  | [] => { backlog := backlog, batches := [], insertedPaths := [] }
  | entry :: rest =>
    let r := add_to_backlog backlog digest_db entry
    let restResult := scan_entries digest_db r.backlog rest
    { backlog := restResult.backlog,
      batches := (if r.emitted.isEmpty then [] else [r.emitted]) ++ restResult.batches,
      insertedPaths :=
        (if r.inserted then [entry.path] else []) ++ restResult.insertedPaths }

/-- Change status of a delta-scan entry (project::PathChange). -/
inductive PathChange
  | loaded
  | added
  | updated
  | addedOrUpdated
  | removed
  deriving DecidableEq, Repr

def entry_for_id (worktree : List (Nat × Entry)) (id : Nat) : Option Entry :=
  (worktree.find? (fun kv => kv.1 == id)).map (·.2)

/-- scan_updated_entries: iterate the updated-entries set; for live statuses
look the entry up by id and, when it is a file, run the same add_to_backlog
logic as the full scan; the Removed branch computes the db key but performs no
deletion (the deletion code is commented out in the source, marked TODO). -/
def scan_updated_entries (digest_db : Table FileDigest) (worktree : List (Nat × Entry))
    (backlog : SummaryBacklog) : List (String × Nat × PathChange) → ScanResult
  | [] => { backlog := backlog, batches := [], insertedPaths := [] }
  | (path, entry_id, status) :: rest =>
    match status with
    | .removed =>
      let _db_path := db_key_for_path path
      scan_updated_entries digest_db worktree backlog rest
    | _ =>
      match entry_for_id worktree entry_id with
      | some entry =>
        if entry.isFile then
          let r := add_to_backlog backlog digest_db entry
          let restResult := scan_updated_entries digest_db worktree r.backlog rest
          { backlog := restResult.backlog,
            batches := (if r.emitted.isEmpty then [] else [r.emitted]) ++ restResult.batches,
            insertedPaths :=
              (if r.inserted then [entry.path] else []) ++ restResult.insertedPaths }
        else
          scan_updated_entries digest_db worktree backlog rest
      | none => scan_updated_entries digest_db worktree backlog rest

/-- digest_files: for every (path, mtime) pair of every batch, load the file's
contents (a failed read is logged and the file dropped), hash the contents
(blake3, hex-encoded), and emit an UnsummarizedFile.  The worker pool's
interleaving is modelled as the sequential order of the batches. -/
def digest_files (fs : String → Option String) (hash : String → String)
    (batches : List (List (String × Mtime))) : List UnsummarizedFile :=
  batches.flatten.filterMap (fun pm =>
    match fs pm.1 with
    | none => none
    | some contents =>
      some { path := pm.1, mtime := pm.2, digest := hash contents, contents := contents })

/-- check_summary_cache: forward exactly the files whose digest has no record
in the summaries table.  Each lookup in the source opens a fresh read
transaction; in the single-batch schedule modelled here every lookup sees the
run's initial committed state. -/
def check_summary_cache (summary_db : Table String)
    (files : List UnsummarizedFile) : List UnsummarizedFile :=
  files.filter (fun file => (tableGet summary_db file.digest).isNone)

inductive Role
  | user
  | assistant
  | system
  deriving DecidableEq, Repr

structure LanguageModelRequestMessage where
  role : Role
  content : String
  deriving DecidableEq, Repr

structure LanguageModelRequest where
  messages : List LanguageModelRequestMessage
  stop : List String
  temperature : ℚ
  deriving DecidableEq, Repr

/-- The model name hard-coded in summarize_code. -/
def summary_model_name : String := "gpt-4o-mini"

def PROMPT_BEFORE_CODE : String :=
  "Summarize this code in 3 sentences, using no newlines or bullet points in the summary:"

def model_not_found_message : String :=
  "Couldn't find the preferred summarization model in the language registry's available models"

/-- The completion request summarize_code builds: one user message whose
content is `format!("{PROMPT_BEFORE_CODE}\n{code}")`, no stop sequences,
temperature 1.0. -/
def summarize_request (code : String) : LanguageModelRequest :=
  { messages := [{ role := Role.user, content := PROMPT_BEFORE_CODE ++ "\n" ++ code }],
    stop := [],
    temperature := 1 }

/-- summarize_code: if the configured model name is not among the registry's
available models, fail with an error; otherwise issue the single completion
request and, on provider failure, log a warning and return `Ok("")` (the empty
string is the soft-fail sentinel filtered out by the caller). -/
def summarize_code (registry : List String)
    (provider : LanguageModelRequest → Option String) (code : String) :
    Except String String :=
  if registry.contains summary_model_name then
    match provider (summarize_request code) with
    | some answer => .ok answer
    | none => .ok ""
  else
    .error model_not_found_message

/-- summarize_files: sequentially summarize each incoming file, propagating a
summarize_code error (which aborts the stage task), and forwarding a
SummarizedFile only when the summary is nonempty.  The second component
collects (instrumentation) the completion request issued for each file the
stage processed. -/
def summarize_files (registry : List String)
    (provider : LanguageModelRequest → Option String) :
    List UnsummarizedFile → Except String (List SummarizedFile × List LanguageModelRequest)
  | [] => .ok ([], [])
  | file :: rest =>
    match summarize_code registry provider file.contents with
    | .error e => .error e
    | .ok summary =>
      match summarize_files registry provider rest with
      | .error e => .error e
      | .ok (tail, reqs) =>
        if summary == "" then
          .ok (tail, summarize_request file.contents :: reqs)
        else
          .ok ({ path := file.path, mtime := file.mtime, digest := file.digest,
                 summary := summary } :: tail,
               summarize_request file.contents :: reqs)

/-- A single write inside the persister's write transaction. -/
inductive DbWrite
  | digest (key : String) (value : FileDigest)
  | summary (key : String) (value : String)
  deriving DecidableEq, Repr

/-- The writes persist_summaries performs inside one write transaction for one
batch: for every file, first `digest_db.put(&mut txn, &file.path, ...)` — note
the key is the raw path string, not db_key_for_path — then
`summary_db.put(&mut txn, &file.digest, &file.summary)`. -/
def persist_txn_writes : List SummarizedFile → List DbWrite
  | [] => []
  | file :: rest =>
    DbWrite.digest file.path { mtime := file.mtime, digest := file.digest } ::
    DbWrite.summary file.digest file.summary ::
    persist_txn_writes rest

def applyWrite (store : Store) : DbWrite → Store
  | .digest k v => { store with file_digests := tablePut store.file_digests k v }
  | .summary k v => { store with summaries := tablePut store.summaries k v }

/-- Committing a write transaction applies its writes, in order, to the store. -/
def commitTxn (store : Store) (writes : List DbWrite) : Store :=
  writes.foldl applyWrite store

/-- persist_summaries on one batch: open one write transaction, perform both
puts for every file of the batch, then commit once. -/
def persist_summaries (store : Store) (batch : List SummarizedFile) : Store :=
  commitTxn store (persist_txn_writes batch)

/-- An aborted write transaction is discarded before commit: the store is
unchanged, none of the batch's writes become visible. -/
def persist_aborted (store : Store) (_batch : List SummarizedFile) : Store :=
  store

/-- Outcome of one whole indexing run. -/
structure RunOutcome where
  store : Store
  backlog : SummaryBacklog
  scanInserted : List String
  requests : List LanguageModelRequest

structure RunConfig where
  registry : List String
  provider : LanguageModelRequest → Option String
  fs : String → Option String
  hash : String → String

/-- index_entries_changed_on_disk: scan the snapshot, digest the drained
batches, filter by the summary cache, summarize, persist, and try_join all
stage tasks — any stage error fails the whole run with that single error. -/
def run_index (cfg : RunConfig) (store : Store) (backlog : SummaryBacklog)
    (snapshot : List Entry) : Except String RunOutcome :=
  let scanned := scan_entries store.file_digests backlog snapshot
  let digested := digest_files cfg.fs cfg.hash scanned.batches
  let needsSummary := check_summary_cache store.summaries digested
  match summarize_files cfg.registry cfg.provider needsSummary with
  | .error e => .error e
  | .ok (summarized, reqs) =>
    .ok { store := persist_summaries store summarized,
          backlog := scanned.backlog,
          scanInserted := scanned.insertedPaths,
          requests := reqs }

/-! ### Association-table lemmas -/

theorem find?_filter_ne {α : Type} (k k' : String) (t : Table α) (h : k' ≠ k) :
    (t.filter (fun kv => kv.1 != k)).find? (fun kv => kv.1 == k') =
      t.find? (fun kv => kv.1 == k') := by
  induction t with
  | nil => rfl
  | cons x rest ih =>
    by_cases hx : x.1 = k
    · have hx' : (x.1 == k') = false := by
        rw [beq_eq_false_iff_ne]
        intro hk
        exact h (by rw [← hk, hx])
      have hfilter : List.filter (fun kv => kv.1 != k) (x :: rest)
          = List.filter (fun kv => kv.1 != k) rest := by
        simp [List.filter_cons, hx]
      rw [hfilter, ih, List.find?_cons, hx']
    · have hfilter : List.filter (fun kv => kv.1 != k) (x :: rest)
          = x :: List.filter (fun kv => kv.1 != k) rest := by
        simp [List.filter_cons, hx]
      rw [hfilter, List.find?_cons, List.find?_cons, ih]

theorem tableGet_put_same {α : Type} (t : Table α) (k : String) (v : α) :
    tableGet (tablePut t k v) k = some v := by
  simp [tableGet, tablePut, List.find?_cons]

theorem tableGet_put_other {α : Type} (t : Table α) (k k' : String) (v : α)
    (h : k' ≠ k) :
    tableGet (tablePut t k v) k' = tableGet t k' := by
  have hk : (k == k') = false := by
    rw [beq_eq_false_iff_ne]
    exact fun hk => h hk.symm
  simp [tableGet, tablePut, List.find?_cons, hk, find?_filter_ne k k' t h]

theorem filter_eq_filter_ne {α : Type} (k : String) (t : Table α) :
    (t.filter (fun kv => kv.1 != k)).filter (fun kv => kv.1 == k) = [] := by
  induction t with
  | nil => rfl
  | cons x rest ih =>
    by_cases hx : x.1 = k
    · simp [List.filter_cons, hx, ih]
    · simp [List.filter_cons, hx, ih]

theorem tableCountKey_put_self {α : Type} (t : Table α) (k : String) (v : α) :
    tableCountKey (tablePut t k v) k = 1 := by
  simp [tableCountKey, tablePut, List.filter_cons, filter_eq_filter_ne]

/-! ### Claim C9: the summarization request shape -/

/-- The instruction prompt exactly as claim C9 quotes it. -/
def spec_claimed_prompt : String :=
  "Summarize this code in 3 sentences, no newlines or bullet points"

/-- Claim C9, counterexample: the single user message's content is not the
claim's quoted instruction string concatenated with the file contents — the
source's prompt reads "using no newlines or bullet points in the summary:" and
is followed by a newline before the code. -/
theorem summarize_request_prompt_text_differs :
    (summarize_request "x").messages.map (fun m => m.content) ≠
      [spec_claimed_prompt ++ "x"] := by
  decide

/-- Claim C9, amended: for every batch the summarizer stage processes
successfully, it issues exactly one completion request per file, each with a
single user message whose content is the literal prompt "Summarize this code
in 3 sentences, using no newlines or bullet points in the summary:" followed
by a newline and the file contents, an empty stop-sequence list, and
temperature exactly 1. -/
theorem summarize_request_shape (registry : List String)
    (provider : LanguageModelRequest → Option String) (files : List UnsummarizedFile)
    (summarized : List SummarizedFile) (reqs : List LanguageModelRequest)
    (h : summarize_files registry provider files = .ok (summarized, reqs)) :
    reqs = files.map (fun f =>
      { messages := [{ role := Role.user,
                       content := "Summarize this code in 3 sentences, using no newlines or bullet points in the summary:"
                         ++ "\n" ++ f.contents }],
        stop := [],
        temperature := 1 }) ∧
    reqs.length = files.length := by
  have main : reqs = files.map (fun f => summarize_request f.contents) := by
    induction files generalizing summarized reqs with
    | nil =>
      simp only [summarize_files] at h
      cases h
      rfl
    | cons f rest ih =>
      simp only [summarize_files] at h
      split at h
      · exact absurd h (by simp)
      · split at h
        · exact absurd h (by simp)
        · split at h
          · cases h
            simp only [List.map_cons, List.cons.injEq, true_and]
            exact ih _ _ (by assumption)
          · cases h
            simp only [List.map_cons, List.cons.injEq, true_and]
            exact ih _ _ (by assumption)
  constructor
  · rw [main]
    rfl
  · rw [main, List.length_map]

def witness_file : UnsummarizedFile :=
  { path := "a", mtime := some 1, digest := "d", contents := "code" }

def witness_summarize_run :
    Except String (List SummarizedFile × List LanguageModelRequest) :=
  summarize_files ["gpt-4o-mini"] (fun _ => some "S") [witness_file]

def witness_summarized : List SummarizedFile :=
  match witness_summarize_run with
  | .ok (s, _) => s
  | .error _ => []

def witness_reqs : List LanguageModelRequest :=
  match witness_summarize_run with
  | .ok (_, reqs) => reqs
  | .error _ => []

/-- Witness for the amended C9 theorem at a concrete one-file run. -/
theorem summarize_request_shape_witness :
    witness_reqs = ([witness_file] : List UnsummarizedFile).map (fun f =>
      { messages := [{ role := Role.user,
                       content := "Summarize this code in 3 sentences, using no newlines or bullet points in the summary:"
                         ++ "\n" ++ f.contents }],
        stop := [],
        temperature := 1 }) ∧
    witness_reqs.length = ([witness_file] : List UnsummarizedFile).length :=
  summarize_request_shape ["gpt-4o-mini"] (fun _ => some "S") [witness_file]
    witness_summarized witness_reqs rfl

/-! ### Claim C6: the scanner's insertion condition -/

/-- The Scanner insertion condition exactly as claim C6 states it: insert if
no record exists for the path, or the recorded mtime differs from the entry's
current mtime (so an entry with no existing record is always inserted). -/
def spec_scan_insert_condition (digest_db : Table FileDigest) (entry : Entry) : Bool :=
  match tableGet digest_db (db_key_for_path entry.path) with
  | none => true
  | some saved => decide (saved.mtime ≠ entry.mtime)

/-- Claim C6, counterexample: an entry whose mtime is `none` and for which no
record exists is NOT inserted by add_to_backlog (the source compares
`entry.mtime != opt_saved_digest.and_then(|d| d.mtime)`, and `none = none`),
while the claim's condition says a record-less entry is always inserted. -/
theorem scan_insert_claim_false :
    ¬ (((add_to_backlog { maxCount := 8, maxBytes := 1000, files := [] } []
          { path := "a.txt", size := 1, mtime := none, isFile := true }).inserted = true) ↔
        spec_scan_insert_condition []
          { path := "a.txt", size := 1, mtime := none, isFile := true } = true) := by
  decide

/-- Claim C6, amended: a live entry is inserted into the Backlog if and only
if its current mtime differs from the recorded record's mtime, where a missing
record counts as mtime `none` — so an entry with no existing record is
inserted exactly when its current mtime is present, and an equal mtime
(including both absent) leaves the Backlog unchanged and emits nothing. -/
theorem add_to_backlog_inserted_eq (b : SummaryBacklog) (db : Table FileDigest)
    (e : Entry) :
    (add_to_backlog b db e).inserted =
      decide (e.mtime ≠ (tableGet db (db_key_for_path e.path)).bind (fun d => d.mtime)) := by
  unfold add_to_backlog
  by_cases hc : e.mtime = (tableGet db (db_key_for_path e.path)).bind (fun d => d.mtime)
  · rw [if_neg (not_not_intro hc), decide_eq_false (not_not_intro hc)]
  · rw [if_pos hc, decide_eq_true hc]
    dsimp only
    split <;> rfl

theorem add_to_backlog_frame (b : SummaryBacklog) (db : Table FileDigest) (e : Entry)
    (h : e.mtime = (tableGet db (db_key_for_path e.path)).bind (fun d => d.mtime)) :
    add_to_backlog b db e = { backlog := b, emitted := [], inserted := false } := by
  unfold add_to_backlog
  rw [if_neg (not_not_intro h)]

theorem scan_insert_condition_amended (b : SummaryBacklog) (db : Table FileDigest)
    (e : Entry) :
    ((add_to_backlog b db e).inserted = true ↔
      (match tableGet db (db_key_for_path e.path) with
       | none => e.mtime.isSome = true
       | some saved => saved.mtime ≠ e.mtime)) ∧
    ((add_to_backlog b db e).inserted = false →
      (add_to_backlog b db e).backlog = b ∧ (add_to_backlog b db e).emitted = []) := by
  have hins := add_to_backlog_inserted_eq b db e
  constructor
  · rw [hins]
    cases hdb : tableGet db (db_key_for_path e.path) with
    | none =>
      show decide (e.mtime ≠ (none : Mtime)) = true ↔ e.mtime.isSome = true
      simp [decide_eq_true_eq, Option.isSome_iff_ne_none]
    | some saved =>
      show decide (e.mtime ≠ saved.mtime) = true ↔ saved.mtime ≠ e.mtime
      simp only [decide_eq_true_eq]
      exact ne_comm
  · intro hfalse
    rw [hins] at hfalse
    have hc : e.mtime = (tableGet db (db_key_for_path e.path)).bind (fun d => d.mtime) :=
      not_not.mp (of_decide_eq_false hfalse)
    rw [add_to_backlog_frame b db e hc]
    exact ⟨rfl, rfl⟩

/-- Witness for the amended C6 theorem: a fresh entry with a present mtime and
no prior record is inserted. -/
theorem scan_insert_condition_amended_witness :
    (add_to_backlog { maxCount := 8, maxBytes := 1000, files := [] } []
      { path := "a.txt", size := 1, mtime := some 5, isFile := true }).inserted = true :=
  ((scan_insert_condition_amended { maxCount := 8, maxBytes := 1000, files := [] } []
      { path := "a.txt", size := 1, mtime := some 5, isFile := true }).1).mpr rfl

/-! ### Claims C1 and C2: the persisted key never matches the scanned key -/

def nested_cfg : RunConfig :=
  { registry := ["gpt-4o-mini"],
    provider := fun _ => some "a summary",
    fs := fun p => if p == "dir/a.txt" then some "hello" else none,
    hash := fun s => s }

def nested_snapshot : List Entry :=
  [{ path := "dir/a.txt", size := 5, mtime := some 1, isFile := true }]

def nested_backlog : SummaryBacklog :=
  { maxCount := 0, maxBytes := 1000000, files := [] }

def empty_store : Store := { file_digests := [], summaries := [] }

def nested_run1 : Except String RunOutcome :=
  run_index nested_cfg empty_store nested_backlog nested_snapshot

def nested_store1 : Option Store :=
  match nested_run1 with
  | .ok o => some o.store
  | .error _ => none

def nested_second_scan_inserted : Option (List String) :=
  match nested_run1 with
  | .error _ => none
  | .ok o =>
    match run_index nested_cfg o.store nested_backlog nested_snapshot with
    | .error _ => none
    | .ok o2 => some o2.scanInserted

/-- Claim C1 fails on the code (code bug): after a full scan of a one-file
snapshot (path "dir/a.txt", unchanged on disk, summaries persisted), the
second full scan inserts that same file into the backlog again, because
persist_summaries stored its FileDigestRecord under the raw path while the
scanner looks it up under db_key_for_path. -/
theorem full_scan_twice_reinserts_nested_file :
    nested_second_scan_inserted = some ["dir/a.txt"] ∧
    nested_second_scan_inserted ≠ some [] := by
  refine ⟨rfl, ?_⟩
  decide

/-- Claim C2 fails on the code (code bug): after processing "dir/a.txt" end to
end, the FileDigestRecord sits under the raw key "dir/a.txt" (with the path
separator intact), while the scanner's lookup key db_key_for_path replaces the
separator with a null byte — the two stages do not use the same key. -/
theorem digest_record_key_mismatch :
    nested_store1 = some
      { file_digests := [("dir/a.txt", { mtime := some 1, digest := "hello" })],
        summaries := [("hello", "a summary")] } ∧
    (match nested_store1 with
     | some s => (tableGet s.file_digests "dir/a.txt",
                  tableGet s.file_digests (db_key_for_path "dir/a.txt"))
     | none => (none, none)) =
      (some { mtime := some 1, digest := "hello" }, none) ∧
    db_key_for_path "dir/a.txt" ≠ "dir/a.txt" := by
  refine ⟨rfl, rfl, ?_⟩
  decide

/-! ### Persistence lemmas -/

theorem persist_summaries_nil (store : Store) : persist_summaries store [] = store := rfl

theorem persist_summaries_cons (store : Store) (f : SummarizedFile)
    (batch : List SummarizedFile) :
    persist_summaries store (f :: batch) =
      persist_summaries
        { file_digests :=
            tablePut store.file_digests f.path { mtime := f.mtime, digest := f.digest },
          summaries := tablePut store.summaries f.digest f.summary } batch := rfl

theorem persist_digest_preserved (batch : List SummarizedFile) (store : Store)
    (k : String) (h : ∀ g ∈ batch, g.path ≠ k) :
    tableGet (persist_summaries store batch).file_digests k =
      tableGet store.file_digests k := by
  induction batch generalizing store with
  | nil => rfl
  | cons f rest ih =>
    rw [persist_summaries_cons, ih _ (fun g hg => h g (List.mem_cons_of_mem f hg))]
    exact tableGet_put_other _ _ _ _
      (fun hk => h f (List.mem_cons_self f rest) hk.symm)

theorem persist_summary_preserved (batch : List SummarizedFile) (store : Store)
    (k : String) (h : ∀ g ∈ batch, g.digest ≠ k) :
    tableGet (persist_summaries store batch).summaries k =
      tableGet store.summaries k := by
  induction batch generalizing store with
  | nil => rfl
  | cons f rest ih =>
    rw [persist_summaries_cons, ih _ (fun g hg => h g (List.mem_cons_of_mem f hg))]
    exact tableGet_put_other _ _ _ _
      (fun hk => h f (List.mem_cons_self f rest) hk.symm)

theorem persist_digest_stable (batch : List SummarizedFile) (store : Store)
    (k : String) (v : FileDigest)
    (hstore : tableGet store.file_digests k = some v)
    (h : ∀ g ∈ batch, g.path = k →
      ({ mtime := g.mtime, digest := g.digest } : FileDigest) = v) :
    tableGet (persist_summaries store batch).file_digests k = some v := by
  induction batch generalizing store with
  | nil => exact hstore
  | cons f rest ih =>
    rw [persist_summaries_cons]
    apply ih
    · by_cases hp : f.path = k
      · rw [hp, tableGet_put_same]
        exact congrArg some (h f (List.mem_cons_self f rest) hp)
      · rw [tableGet_put_other _ _ _ _ (fun hk => hp hk.symm)]
        exact hstore
    · exact fun g hg hgk => h g (List.mem_cons_of_mem f hg) hgk

theorem persist_summary_stable (batch : List SummarizedFile) (store : Store)
    (k : String) (v : String)
    (hstore : tableGet store.summaries k = some v)
    (h : ∀ g ∈ batch, g.digest = k → g.summary = v) :
    tableGet (persist_summaries store batch).summaries k = some v := by
  induction batch generalizing store with
  | nil => exact hstore
  | cons f rest ih =>
    rw [persist_summaries_cons]
    apply ih
    · by_cases hp : f.digest = k
      · rw [hp, tableGet_put_same]
        exact congrArg some (h f (List.mem_cons_self f rest) hp)
      · rw [tableGet_put_other _ _ _ _ (fun hk => hp hk.symm)]
        exact hstore
    · exact fun g hg hgk => h g (List.mem_cons_of_mem f hg) hgk

theorem persist_digest_get_of_mem (batch : List SummarizedFile) (store : Store)
    (f : SummarizedFile) (hf : f ∈ batch)
    (h : ∀ g ∈ batch, g.path = f.path →
      ({ mtime := g.mtime, digest := g.digest } : FileDigest) =
        { mtime := f.mtime, digest := f.digest }) :
    tableGet (persist_summaries store batch).file_digests f.path =
      some { mtime := f.mtime, digest := f.digest } := by
  induction batch generalizing store with
  | nil => cases hf
  | cons g rest ih =>
    rw [persist_summaries_cons]
    rcases List.mem_cons.mp hf with hfg | hfr
    · subst hfg
      apply persist_digest_stable
      · rw [tableGet_put_same]
      · exact fun g' hg' hk => h g' (List.mem_cons_of_mem f hg') hk
    · exact ih _ hfr (fun g' hg' hk => h g' (List.mem_cons_of_mem g hg') hk)

theorem persist_summary_get_of_mem (batch : List SummarizedFile) (store : Store)
    (f : SummarizedFile) (hf : f ∈ batch)
    (h : ∀ g ∈ batch, g.digest = f.digest → g.summary = f.summary) :
    tableGet (persist_summaries store batch).summaries f.digest = some f.summary := by
  induction batch generalizing store with
  | nil => cases hf
  | cons g rest ih =>
    rw [persist_summaries_cons]
    rcases List.mem_cons.mp hf with hfg | hfr
    · subst hfg
      apply persist_summary_stable
      · rw [tableGet_put_same]
      · exact fun g' hg' hk => h g' (List.mem_cons_of_mem f hg') hk
    · exact ih _ hfr (fun g' hg' hk => h g' (List.mem_cons_of_mem g hg') hk)

theorem persist_txn_writes_mem (batch : List SummarizedFile) (f : SummarizedFile)
    (hf : f ∈ batch) :
    DbWrite.digest f.path { mtime := f.mtime, digest := f.digest } ∈
      persist_txn_writes batch ∧
    DbWrite.summary f.digest f.summary ∈ persist_txn_writes batch := by
  induction batch with
  | nil => cases hf
  | cons g rest ih =>
    rcases List.mem_cons.mp hf with hfg | hfr
    · subst hfg
      exact ⟨List.mem_cons_self _ _,
             List.mem_cons_of_mem _ (List.mem_cons_self _ _)⟩
    · obtain ⟨h1, h2⟩ := ih hfr
      exact ⟨List.mem_cons_of_mem _ (List.mem_cons_of_mem _ h1),
             List.mem_cons_of_mem _ (List.mem_cons_of_mem _ h2)⟩

/-! ### Claim C5: atomic batch persistence -/

/-- Claim C5: for every batch the persister flushes, both the digest write and
the summary write for every file of the batch are staged inside the single
write transaction (and thus precede its one commit); after the commit the
store holds both records; and a transaction aborted before commit leaves the
store exactly as it was — none of the batch's writes become visible.  The two
hypotheses rule out a later file of the same batch overwriting the same key
with a different value, which reflects the source's last-put-wins table
semantics. -/
theorem persist_batch_atomic (store : Store) (batch : List SummarizedFile)
    (f : SummarizedFile) (hf : f ∈ batch)
    (hpaths : ∀ g ∈ batch, g.path = f.path → g = f)
    (hdigests : ∀ g ∈ batch, g.digest = f.digest → g.summary = f.summary) :
    (DbWrite.digest f.path { mtime := f.mtime, digest := f.digest } ∈
      persist_txn_writes batch) ∧
    (DbWrite.summary f.digest f.summary ∈ persist_txn_writes batch) ∧
    tableGet (persist_summaries store batch).file_digests f.path =
      some { mtime := f.mtime, digest := f.digest } ∧
    tableGet (persist_summaries store batch).summaries f.digest = some f.summary ∧
    persist_aborted store batch = store := by
  obtain ⟨hw1, hw2⟩ := persist_txn_writes_mem batch f hf
  refine ⟨hw1, hw2, ?_, ?_, rfl⟩
  · exact persist_digest_get_of_mem batch store f hf
      (fun g hg hk => by rw [hpaths g hg hk])
  · exact persist_summary_get_of_mem batch store f hf hdigests

/-- Witness for C5 at a concrete one-file batch. -/
theorem persist_batch_atomic_witness :
    (DbWrite.digest "a.txt" { mtime := some 1, digest := "d" } ∈
      persist_txn_writes
        [{ path := "a.txt", mtime := some 1, digest := "d", summary := "S" }]) ∧
    (DbWrite.summary "d" "S" ∈
      persist_txn_writes
        [{ path := "a.txt", mtime := some 1, digest := "d", summary := "S" }]) ∧
    tableGet (persist_summaries empty_store
        [{ path := "a.txt", mtime := some 1, digest := "d", summary := "S" }]).file_digests
        "a.txt" = some { mtime := some 1, digest := "d" } ∧
    tableGet (persist_summaries empty_store
        [{ path := "a.txt", mtime := some 1, digest := "d", summary := "S" }]).summaries
        "d" = some "S" ∧
    persist_aborted empty_store
        [{ path := "a.txt", mtime := some 1, digest := "d", summary := "S" }] =
      empty_store :=
  persist_batch_atomic empty_store
    [{ path := "a.txt", mtime := some 1, digest := "d", summary := "S" }]
    { path := "a.txt", mtime := some 1, digest := "d", summary := "S" }
    (by decide) (by decide) (by decide)

/-! ### Claim C3: deduplication of identical contents -/

def dedup_cfg : RunConfig :=
  { registry := ["gpt-4o-mini"],
    provider := fun _ => some "a summary",
    fs := fun p => if p == "a.txt" || p == "b.txt" then some "same contents" else none,
    hash := fun s => s }

def dedup_snapshot : List Entry :=
  [{ path := "a.txt", size := 13, mtime := some 1, isFile := true },
   { path := "b.txt", size := 13, mtime := some 2, isFile := true }]

def dedup_run : Except String RunOutcome :=
  run_index dedup_cfg empty_store nested_backlog dedup_snapshot

def dedup_calls : Option Nat :=
  match dedup_run with
  | .ok o => some o.requests.length
  | .error _ => none

/-- Claim C3, counterexample: two distinct paths with byte-identical contents,
processed in one run from an empty database, produce TWO completion requests,
not one — the second file's cache check reads the summaries table before the
persister's batch has committed the first file's summary. -/
theorem identical_contents_two_summarizer_calls :
    dedup_calls = some 2 ∧ dedup_calls ≠ some 1 := by
  refine ⟨rfl, ?_⟩
  decide

/-- Claim C3, amended: two distinct file paths with byte-identical contents
(same digest), both cache misses at the start of the run, produce one
Summarizer call EACH — two requests in the run, since neither summary is
committed before the other's cache check — and after persistence both paths'
digest records carry the same digest while exactly one SummaryRecord exists
for that digest in the summaries table. -/
theorem dedup_single_summary_record (registry : List String)
    (provider : LanguageModelRequest → Option String) (store : Store)
    (f g : UnsummarizedFile) (s : String)
    (hmodel : registry.contains summary_model_name = true)
    (hpath : f.path ≠ g.path)
    (hdig : f.digest = g.digest)
    (hcontents : f.contents = g.contents)
    (hmiss : tableGet store.summaries f.digest = none)
    (hprov : provider (summarize_request f.contents) = some s)
    (hs : s ≠ "") :
    check_summary_cache store.summaries [f, g] = [f, g] ∧
    summarize_files registry provider [f, g] =
      .ok ([{ path := f.path, mtime := f.mtime, digest := f.digest, summary := s },
            { path := g.path, mtime := g.mtime, digest := g.digest, summary := s }],
           [summarize_request f.contents, summarize_request g.contents]) ∧
    tableGet (persist_summaries store
        [{ path := f.path, mtime := f.mtime, digest := f.digest, summary := s },
         { path := g.path, mtime := g.mtime, digest := g.digest, summary := s }]).file_digests
        f.path = some { mtime := f.mtime, digest := f.digest } ∧
    tableGet (persist_summaries store
        [{ path := f.path, mtime := f.mtime, digest := f.digest, summary := s },
         { path := g.path, mtime := g.mtime, digest := g.digest, summary := s }]).file_digests
        g.path = some { mtime := g.mtime, digest := f.digest } ∧
    tableCountKey (persist_summaries store
        [{ path := f.path, mtime := f.mtime, digest := f.digest, summary := s },
         { path := g.path, mtime := g.mtime, digest := g.digest, summary := s }]).summaries
        f.digest = 1 := by
  have hmg : tableGet store.summaries g.digest = none := by
    rw [← hdig]
    exact hmiss
  have hprovg : provider (summarize_request g.contents) = some s := by
    rw [← hcontents]
    exact hprov
  have hmem : summary_model_name ∈ registry := by simpa using hmodel
  refine ⟨?_, ?_, ?_, ?_, ?_⟩
  · simp [check_summary_cache, List.filter, hmiss, hmg]
  · simp [summarize_files, summarize_code, hmem, hprov, hprovg, hs]
  · rw [persist_summaries_cons, persist_summaries_cons, persist_summaries_nil]
    rw [show ({ file_digests := tablePut _ _ _, summaries := tablePut _ _ _ } : Store).file_digests
        = tablePut (tablePut store.file_digests f.path { mtime := f.mtime, digest := f.digest })
            g.path { mtime := g.mtime, digest := g.digest } from rfl]
    rw [tableGet_put_other _ g.path f.path _ hpath, tableGet_put_same]
  · rw [persist_summaries_cons, persist_summaries_cons, persist_summaries_nil]
    rw [show ({ file_digests := tablePut _ _ _, summaries := tablePut _ _ _ } : Store).file_digests
        = tablePut (tablePut store.file_digests f.path { mtime := f.mtime, digest := f.digest })
            g.path { mtime := g.mtime, digest := g.digest } from rfl]
    rw [tableGet_put_same, hdig]
  · rw [persist_summaries_cons, persist_summaries_cons, persist_summaries_nil]
    rw [show ({ file_digests := tablePut _ _ _, summaries := tablePut _ _ _ } : Store).summaries
        = tablePut (tablePut store.summaries f.digest s) g.digest s from rfl]
    rw [hdig, tableCountKey_put_self]

/-- Witness for the amended C3 theorem at two concrete files. -/
def dedup_f : UnsummarizedFile :=
  { path := "a.txt", mtime := some 1, digest := "d", contents := "c" }

def dedup_g : UnsummarizedFile :=
  { path := "b.txt", mtime := some 2, digest := "d", contents := "c" }

theorem dedup_single_summary_record_witness :
    check_summary_cache empty_store.summaries [dedup_f, dedup_g] = [dedup_f, dedup_g] ∧
    summarize_files ["gpt-4o-mini"] (fun _ => some "S") [dedup_f, dedup_g] =
      .ok ([{ path := dedup_f.path, mtime := dedup_f.mtime, digest := dedup_f.digest,
              summary := "S" },
            { path := dedup_g.path, mtime := dedup_g.mtime, digest := dedup_g.digest,
              summary := "S" }],
           [summarize_request dedup_f.contents, summarize_request dedup_g.contents]) ∧
    tableGet (persist_summaries empty_store
        [{ path := dedup_f.path, mtime := dedup_f.mtime, digest := dedup_f.digest,
           summary := "S" },
         { path := dedup_g.path, mtime := dedup_g.mtime, digest := dedup_g.digest,
           summary := "S" }]).file_digests dedup_f.path =
      some { mtime := dedup_f.mtime, digest := dedup_f.digest } ∧
    tableGet (persist_summaries empty_store
        [{ path := dedup_f.path, mtime := dedup_f.mtime, digest := dedup_f.digest,
           summary := "S" },
         { path := dedup_g.path, mtime := dedup_g.mtime, digest := dedup_g.digest,
           summary := "S" }]).file_digests dedup_g.path =
      some { mtime := dedup_g.mtime, digest := dedup_f.digest } ∧
    tableCountKey (persist_summaries empty_store
        [{ path := dedup_f.path, mtime := dedup_f.mtime, digest := dedup_f.digest,
           summary := "S" },
         { path := dedup_g.path, mtime := dedup_g.mtime, digest := dedup_g.digest,
           summary := "S" }]).summaries dedup_f.digest = 1 :=
  dedup_single_summary_record ["gpt-4o-mini"] (fun _ => some "S") empty_store
    dedup_f dedup_g "S" (by decide) (by decide) rfl rfl rfl rfl (by decide)

/-! ### Claim C7: a missing summarization model aborts the whole run -/

theorem summarize_files_no_model (registry : List String)
    (provider : LanguageModelRequest → Option String) (files : List UnsummarizedFile)
    (hreg : registry.contains summary_model_name = false) (hne : files ≠ []) :
    summarize_files registry provider files = .error model_not_found_message := by
  cases files with
  | nil => exact absurd rfl hne
  | cons f rest =>
    have hcond : ¬ (registry.contains summary_model_name = true) := by
      rw [hreg]
      exact Bool.false_ne_true
    simp only [summarize_files, summarize_code]
    rw [if_neg hcond]

/-- Claim C7: when the configured model name is not among the registry's
available models and at least one file reaches the Summarizer, the first file
makes summarize_code return an error, the summarization stage task fails, and
the try_join makes the whole indexing run fail with that single error. -/
theorem missing_model_fails_run (cfg : RunConfig) (store : Store) (bl : SummaryBacklog)
    (snapshot : List Entry)
    (hreg : cfg.registry.contains summary_model_name = false)
    (hne : check_summary_cache store.summaries
        (digest_files cfg.fs cfg.hash
          (scan_entries store.file_digests bl snapshot).batches) ≠ []) :
    run_index cfg store bl snapshot = .error model_not_found_message := by
  simp only [run_index]
  rw [summarize_files_no_model cfg.registry cfg.provider _ hreg hne]

def nomodel_cfg : RunConfig :=
  { registry := [],
    provider := fun _ => none,
    fs := fun _ => some "x",
    hash := fun s => s }

/-- Witness for C7: an empty model registry fails a one-file run. -/
theorem missing_model_fails_run_witness :
    run_index nomodel_cfg empty_store nested_backlog
        [{ path := "a.txt", size := 1, mtime := some 1, isFile := true }] =
      .error model_not_found_message :=
  missing_model_fails_run nomodel_cfg empty_store nested_backlog
    [{ path := "a.txt", size := 1, mtime := some 1, isFile := true }] rfl (by decide)

/-! ### Scan and digester membership lemmas -/

theorem scan_entries_nil (db : Table FileDigest) (bl : SummaryBacklog) :
    scan_entries db bl [] = { backlog := bl, batches := [], insertedPaths := [] } := rfl

theorem scan_entries_cons (db : Table FileDigest) (bl : SummaryBacklog) (e : Entry)
    (rest : List Entry) :
    scan_entries db bl (e :: rest) =
      { backlog := (scan_entries db (add_to_backlog bl db e).backlog rest).backlog,
        batches :=
          (if (add_to_backlog bl db e).emitted.isEmpty then []
           else [(add_to_backlog bl db e).emitted]) ++
          (scan_entries db (add_to_backlog bl db e).backlog rest).batches,
        insertedPaths :=
          (if (add_to_backlog bl db e).inserted then [e.path] else []) ++
          (scan_entries db (add_to_backlog bl db e).backlog rest).insertedPaths } := rfl

theorem add_to_backlog_emitted (b : SummaryBacklog) (db : Table FileDigest) (e : Entry) :
    (add_to_backlog b db e).emitted = [] ∨
    (add_to_backlog b db e).emitted =
      (b.insert e.path e.size e.mtime).files.map (fun x => (x.1, x.2.2)) := by
  simp only [add_to_backlog]
  by_cases hc : e.mtime = (tableGet db (db_key_for_path e.path)).bind (fun d => d.mtime)
  · rw [if_neg (not_not_intro hc)]
    exact Or.inl rfl
  · rw [if_pos hc]
    split
    · exact Or.inr rfl
    · exact Or.inl rfl

theorem scan_entries_single_batches (db : Table FileDigest) (bl : SummaryBacklog)
    (e : Entry) (hbl : bl.files = []) :
    ∀ pm ∈ (scan_entries db bl [e]).batches.flatten, pm = (e.path, e.mtime) := by
  intro pm hpm
  rw [scan_entries_cons, scan_entries_nil] at hpm
  rcases add_to_backlog_emitted bl db e with hem | hem
  · simp [hem] at hpm
  · simp only [hem, SummaryBacklog.insert, hbl] at hpm
    simp at hpm
    exact hpm

theorem digest_files_mem (fs : String → Option String) (hash : String → String)
    (batches : List (List (String × Mtime))) (u : UnsummarizedFile)
    (hu : u ∈ digest_files fs hash batches) :
    ∃ pm ∈ batches.flatten, fs pm.1 = some u.contents ∧ u.path = pm.1 ∧
      u.mtime = pm.2 ∧ u.digest = hash u.contents := by
  unfold digest_files at hu
  rcases List.mem_filterMap.mp hu with ⟨pm, hpm, hmap⟩
  refine ⟨pm, hpm, ?_⟩
  cases hfs : fs pm.1 with
  | none =>
    rw [hfs] at hmap
    cases hmap
  | some contents =>
    rw [hfs] at hmap
    cases hmap
    exact ⟨rfl, rfl, rfl, rfl⟩

theorem summarize_files_output_mem (registry : List String)
    (provider : LanguageModelRequest → Option String) (files : List UnsummarizedFile)
    (summarized : List SummarizedFile) (reqs : List LanguageModelRequest)
    (h : summarize_files registry provider files = .ok (summarized, reqs)) :
    ∀ sf ∈ summarized, ∃ u ∈ files, sf.path = u.path ∧ sf.digest = u.digest := by
  induction files generalizing summarized reqs with
  | nil =>
    simp only [summarize_files] at h
    cases h
    intro sf hsf
    cases hsf
  | cons f rest ih =>
    simp only [summarize_files] at h
    split at h
    · exact absurd h (by simp)
    · split at h
      · exact absurd h (by simp)
      · split at h
        · cases h
          intro sf hsf
          obtain ⟨u, hu, h1, h2⟩ := ih _ _ (by assumption) sf hsf
          exact ⟨u, List.mem_cons_of_mem f hu, h1, h2⟩
        · cases h
          intro sf hsf
          rcases List.mem_cons.mp hsf with hsf | hsf
          · subst hsf
            exact ⟨f, List.mem_cons_self f rest, rfl, rfl⟩
          · obtain ⟨u, hu, h1, h2⟩ := ih _ _ (by assumption) sf hsf
            exact ⟨u, List.mem_cons_of_mem f hu, h1, h2⟩

/-! ### Claim C4: provider failure is soft and the file is re-selected -/

theorem summarize_files_all_empty (registry : List String)
    (provider : LanguageModelRequest → Option String) (files : List UnsummarizedFile)
    (hmodel : registry.contains summary_model_name = true)
    (hfail : ∀ f ∈ files, provider (summarize_request f.contents) = none) :
    summarize_files registry provider files =
      .ok ([], files.map (fun f => summarize_request f.contents)) := by
  induction files with
  | nil => rfl
  | cons f rest ih =>
    have hf := hfail f (List.mem_cons_self f rest)
    have hrest := ih (fun g hg => hfail g (List.mem_cons_of_mem f hg))
    have hmem : summary_model_name ∈ registry := by simpa using hmodel
    simp [summarize_files, summarize_code, hmem, hf, hrest]

/-- Claim C4: when the provider fails for the (single) scanned file, no error
propagates out of the Summarizer stage (the run returns Ok), the store is
left exactly as it was — no FileDigestRecord and no SummaryRecord is written —
and a subsequent scan with the same mtime re-selects the file (the insertion
condition still holds on the run's final store). -/
theorem provider_failure_soft_fail_and_reselect (cfg : RunConfig) (store : Store)
    (bl : SummaryBacklog) (e : Entry) (contents : String)
    (hbl : bl.files = [])
    (hmodel : cfg.registry.contains summary_model_name = true)
    (hfs : cfg.fs e.path = some contents)
    (hfail : cfg.provider (summarize_request contents) = none)
    (hsel : (add_to_backlog bl store.file_digests e).inserted = true) :
    ∃ out, run_index cfg store bl [e] = .ok out ∧ out.store = store ∧
      (add_to_backlog bl out.store.file_digests e).inserted = true := by
  have hneeds : ∀ u ∈ check_summary_cache store.summaries
      (digest_files cfg.fs cfg.hash (scan_entries store.file_digests bl [e]).batches),
      cfg.provider (summarize_request u.contents) = none := by
    intro u hu
    have hu' : u ∈ digest_files cfg.fs cfg.hash
        (scan_entries store.file_digests bl [e]).batches :=
      List.mem_of_mem_filter hu
    obtain ⟨pm, hpm, hcont, _, _, _⟩ := digest_files_mem _ _ _ u hu'
    have hpe : pm = (e.path, e.mtime) := scan_entries_single_batches _ _ _ hbl pm hpm
    rw [hpe] at hcont
    rw [hfs] at hcont
    have hcu : contents = u.contents := Option.some.inj hcont
    rw [← hcu]
    exact hfail
  have hsumm := summarize_files_all_empty cfg.registry cfg.provider _ hmodel hneeds
  simp only [run_index]
  rw [hsumm]
  exact ⟨_, rfl, rfl, hsel⟩

def softfail_cfg : RunConfig :=
  { registry := ["gpt-4o-mini"],
    provider := fun _ => none,
    fs := fun _ => some "c",
    hash := fun s => s }

/-- Witness for C4 at a concrete one-file run with an always-failing provider. -/
theorem provider_failure_soft_fail_and_reselect_witness :
    ∃ out, run_index softfail_cfg empty_store nested_backlog
        [{ path := "a.txt", size := 1, mtime := some 1, isFile := true }] = .ok out ∧
      out.store = empty_store ∧
      (add_to_backlog nested_backlog out.store.file_digests
        { path := "a.txt", size := 1, mtime := some 1, isFile := true }).inserted = true :=
  provider_failure_soft_fail_and_reselect softfail_cfg empty_store nested_backlog
    { path := "a.txt", size := 1, mtime := some 1, isFile := true } "c"
    rfl rfl rfl rfl rfl

/-! ### Claim C8: a cache hit leaves that file's records untouched -/

/-- Claim C8: an UnsummarizedFile whose digest already has a SummaryRecord is
not forwarded by the cache checker, and consequently the run writes neither
its FileDigestRecord (its stored mtime is not refreshed) nor its
SummaryRecord: both lookups after persistence give exactly the pre-run
values.  The path-uniqueness hypothesis says no other file of the run shares
its path, which holds for scan output where every path occurs once. -/
theorem cache_hit_frame (registry : List String)
    (provider : LanguageModelRequest → Option String) (store : Store)
    (files : List UnsummarizedFile) (f : UnsummarizedFile) (s : String)
    (summarized : List SummarizedFile) (reqs : List LanguageModelRequest)
    (hhit : tableGet store.summaries f.digest = some s)
    (hf : f ∈ files)
    (hpath : ∀ g ∈ files, g.path = f.path → g = f)
    (hsum : summarize_files registry provider (check_summary_cache store.summaries files) =
      .ok (summarized, reqs)) :
    f ∉ check_summary_cache store.summaries files ∧
    tableGet (persist_summaries store summarized).file_digests f.path =
      tableGet store.file_digests f.path ∧
    tableGet (persist_summaries store summarized).summaries f.digest = some s := by
  have hnotin : f ∉ check_summary_cache store.summaries files := by
    intro hmem
    have hpred := List.of_mem_filter hmem
    rw [hhit] at hpred
    cases hpred
  refine ⟨hnotin, ?_, ?_⟩
  · apply persist_digest_preserved
    intro g hg hgp
    obtain ⟨u, hu, hup, _⟩ := summarize_files_output_mem _ _ _ _ _ hsum g hg
    have hufiles : u ∈ files := List.mem_of_mem_filter hu
    have huf : u = f := hpath u hufiles (by rw [← hup, hgp])
    rw [huf] at hu
    exact hnotin hu
  · rw [persist_summary_preserved]
    · exact hhit
    · intro g hg hgd
      obtain ⟨u, hu, _, hud⟩ := summarize_files_output_mem _ _ _ _ _ hsum g hg
      have hpred := List.of_mem_filter hu
      rw [show u.digest = f.digest from by rw [← hud, hgd]] at hpred
      rw [hhit] at hpred
      cases hpred

def hit_store : Store := { file_digests := [], summaries := [("d", "S")] }

def hit_file : UnsummarizedFile :=
  { path := "a.txt", mtime := some 1, digest := "d", contents := "c" }

/-- Witness for C8 at a concrete cache-hit file. -/
theorem cache_hit_frame_witness :
    hit_file ∉ check_summary_cache hit_store.summaries [hit_file] ∧
    tableGet (persist_summaries hit_store []).file_digests hit_file.path =
      tableGet hit_store.file_digests hit_file.path ∧
    tableGet (persist_summaries hit_store []).summaries hit_file.digest = some "S" :=
  cache_hit_frame [] (fun _ => none) hit_store [hit_file] hit_file "S" [] []
    rfl (by decide) (by decide) rfl

/-! ### Claim C10: sub-threshold backlog residue is not processed -/

theorem insert_paths_subset (b : SummaryBacklog) (path : String) (size : Nat)
    (mtime : Mtime) :
    ∀ q ∈ ((b.insert path size mtime).files.map (fun x => x.1)),
      q ∈ b.files.map (fun x => x.1) ∨ q = path := by
  intro q hq
  simp only [SummaryBacklog.insert, List.map_append, List.mem_append] at hq
  rcases hq with hq | hq
  · left
    obtain ⟨x, hx, hxq⟩ := List.mem_map.mp hq
    exact List.mem_map.mpr ⟨x, List.mem_of_mem_filter hx, hxq⟩
  · right
    simpa using hq

theorem add_to_backlog_cases (b : SummaryBacklog) (db : Table FileDigest) (e : Entry) :
    (add_to_backlog b db e = { backlog := b, emitted := [], inserted := false }) ∨
    (add_to_backlog b db e =
      { backlog := b.insert e.path e.size e.mtime, emitted := [], inserted := true }) ∨
    (add_to_backlog b db e =
      { backlog := { maxCount := b.maxCount, maxBytes := b.maxBytes, files := [] },
        emitted := (b.insert e.path e.size e.mtime).files.map (fun x => (x.1, x.2.2)),
        inserted := true }) := by
  simp only [add_to_backlog]
  by_cases hc : e.mtime = (tableGet db (db_key_for_path e.path)).bind (fun d => d.mtime)
  · rw [if_neg (not_not_intro hc)]
    exact Or.inl rfl
  · rw [if_pos hc]
    split
    · exact Or.inr (Or.inr rfl)
    · exact Or.inr (Or.inl rfl)

/-- Scan invariant: a path left in the backlog when the scan loop ends was
never part of an emitted batch, and stems from the initial backlog or from the
scanned entries. -/
theorem scan_entries_backlog_batches (db : Table FileDigest) :
    ∀ (entries : List Entry) (bl : SummaryBacklog),
      (entries.map Entry.path).Nodup →
      (∀ q ∈ bl.files.map (fun x => x.1), q ∉ entries.map Entry.path) →
      ∀ p ∈ (scan_entries db bl entries).backlog.files.map (fun x => x.1),
        p ∉ ((scan_entries db bl entries).batches.flatten.map (fun pm => pm.1)) ∧
        (p ∈ bl.files.map (fun x => x.1) ∨ p ∈ entries.map Entry.path) := by
  intro entries
  induction entries with
  | nil =>
    intro bl _ _ p hp
    rw [scan_entries_nil] at hp
    exact ⟨by simp [scan_entries_nil], Or.inl hp⟩
  | cons e rest ih =>
    intro bl hnodup hdisj p hp
    have hnodup' : (rest.map Entry.path).Nodup :=
      (List.nodup_cons.mp (by simpa using hnodup)).2
    have hepath : e.path ∉ rest.map Entry.path :=
      (List.nodup_cons.mp (by simpa using hnodup)).1
    rw [scan_entries_cons] at hp
    rcases add_to_backlog_cases bl db e with hcase | hcase | hcase
    · rw [hcase] at hp
      have hdisj' : ∀ q ∈ bl.files.map (fun x => x.1), q ∉ rest.map Entry.path :=
        fun q hq hmem => hdisj q hq (List.mem_cons_of_mem _ hmem)
      obtain ⟨h1, h2⟩ := ih bl hnodup' hdisj' p hp
      refine ⟨?_, h2.imp (fun h => h) (fun h => List.mem_cons_of_mem _ h)⟩
      rw [scan_entries_cons, hcase]
      simpa using h1
    · rw [hcase] at hp
      have hdisj' : ∀ q ∈ (bl.insert e.path e.size e.mtime).files.map (fun x => x.1),
          q ∉ rest.map Entry.path := by
        intro q hq hqr
        rcases insert_paths_subset bl e.path e.size e.mtime q hq with hq' | hq'
        · exact hdisj q hq' (List.mem_cons_of_mem _ hqr)
        · exact hepath (hq' ▸ hqr)
      obtain ⟨h1, h2⟩ := ih _ hnodup' hdisj' p hp
      constructor
      · rw [scan_entries_cons, hcase]
        simpa using h1
      · rcases h2 with h2 | h2
        · rcases insert_paths_subset bl e.path e.size e.mtime p h2 with h2' | h2'
          · exact Or.inl h2'
          · refine Or.inr ?_
            rw [h2']
            exact List.mem_cons_self _ _
        · exact Or.inr (List.mem_cons_of_mem _ h2)
    · rw [hcase] at hp
      have hdisj' : ∀ q ∈ ([] : List String), q ∉ rest.map Entry.path := by
        intro q hq
        cases hq
      obtain ⟨h1, h2⟩ :=
        ih { maxCount := bl.maxCount, maxBytes := bl.maxBytes, files := [] }
          hnodup' hdisj' p hp
      have hrest : p ∈ rest.map Entry.path := by
        rcases h2 with h2 | h2
        · simp at h2
        · exact h2
      have hnotemit : p ∉ ((bl.insert e.path e.size e.mtime).files.map
          (fun x => (x.1, x.2.2))).map (fun pm => pm.1) := by
        intro hinL
        have hinP : p ∈ (bl.insert e.path e.size e.mtime).files.map (fun x => x.1) := by
          simpa [List.map_map, Function.comp] using hinL
        rcases insert_paths_subset bl e.path e.size e.mtime p hinP with hblp | hep
        · exact hdisj p hblp (List.mem_cons_of_mem _ hrest)
        · exact hepath (hep ▸ hrest)
      refine ⟨?_, Or.inr (List.mem_cons_of_mem _ hrest)⟩
      rw [scan_entries_cons, hcase]
      intro hmem
      simp only [List.flatten_append, List.map_append, List.mem_append] at hmem
      rcases hmem with hmem | hmem
      · by_cases hE : ((bl.insert e.path e.size e.mtime).files.map
            (fun x => (x.1, x.2.2))).isEmpty
        · rw [if_pos hE] at hmem
          simp at hmem
        · rw [if_neg hE] at hmem
          simp only [List.flatten, List.append_nil] at hmem
          exact hnotemit (by simpa using hmem)
      · exact h1 hmem

/-- Claim C10: every path still sitting in the backlog when a successful run
ends was never emitted to the digester in that run, no UnsummarizedFile was
produced for it, and its digest record is exactly what it was before the run
(so the file yields no digest, no summary and no record update this run).
The Nodup hypothesis reflects that a snapshot lists each path once; the
disjointness hypothesis says the initial backlog does not already hold one of
the scanned paths. -/
theorem undrained_backlog_entries_not_processed (cfg : RunConfig) (store : Store)
    (bl : SummaryBacklog) (snapshot : List Entry) (p : String) (out : RunOutcome)
    (hnodup : (snapshot.map Entry.path).Nodup)
    (hdisj : ∀ q ∈ bl.files.map (fun x => x.1), q ∉ snapshot.map Entry.path)
    (hrun : run_index cfg store bl snapshot = .ok out)
    (hp : p ∈ out.backlog.files.map (fun x => x.1)) :
    p ∉ ((scan_entries store.file_digests bl snapshot).batches.flatten.map
      (fun pm => pm.1)) ∧
    (∀ u ∈ digest_files cfg.fs cfg.hash
      (scan_entries store.file_digests bl snapshot).batches, u.path ≠ p) ∧
    tableGet out.store.file_digests p = tableGet store.file_digests p := by
  have hout : out.backlog = (scan_entries store.file_digests bl snapshot).backlog ∧
      ∃ summarized reqs,
        summarize_files cfg.registry cfg.provider
          (check_summary_cache store.summaries
            (digest_files cfg.fs cfg.hash
              (scan_entries store.file_digests bl snapshot).batches)) =
          .ok (summarized, reqs) ∧
        out.store = persist_summaries store summarized := by
    simp only [run_index] at hrun
    split at hrun
    · cases hrun
    · cases hrun
      exact ⟨rfl, _, _, (by assumption), rfl⟩
  obtain ⟨hbacklog, summarized, reqs, hsum, hstore⟩ := hout
  rw [hbacklog] at hp
  have hinv := scan_entries_backlog_batches store.file_digests snapshot bl hnodup hdisj p hp
  refine ⟨hinv.1, ?_, ?_⟩
  · intro u hu hup
    obtain ⟨pm, hpm, _, hupath, _, _⟩ := digest_files_mem _ _ _ u hu
    exact hinv.1 (List.mem_map.mpr ⟨pm, hpm, by rw [← hupath]; exact hup⟩)
  · rw [hstore]
    apply persist_digest_preserved
    intro g hg hgp
    obtain ⟨u, hu, hup, _⟩ := summarize_files_output_mem _ _ _ _ _ hsum g hg
    have hud : u ∈ digest_files cfg.fs cfg.hash
        (scan_entries store.file_digests bl snapshot).batches :=
      List.mem_of_mem_filter hu
    obtain ⟨pm, hpm, _, hupath, _, _⟩ := digest_files_mem _ _ _ u hud
    exact hinv.1 (List.mem_map.mpr ⟨pm, hpm, by rw [← hupath, ← hup]; exact hgp⟩)

def residue_cfg : RunConfig :=
  { registry := ["gpt-4o-mini"],
    provider := fun _ => some "S",
    fs := fun _ => some "x",
    hash := fun s => s }

def residue_backlog : SummaryBacklog :=
  { maxCount := 10, maxBytes := 1000000, files := [] }

def residue_snapshot : List Entry :=
  [{ path := "a.txt", size := 1, mtime := some 1, isFile := true }]

def residue_out : RunOutcome :=
  match run_index residue_cfg empty_store residue_backlog residue_snapshot with
  | .ok o => o
  | .error _ =>
    { store := empty_store, backlog := residue_backlog, scanInserted := [], requests := [] }

/-- Witness for C10: with a drain threshold of 10, the single scanned file
stays in the backlog and is never digested or persisted. -/
theorem undrained_backlog_entries_not_processed_witness :
    ("a.txt" ∉ ((scan_entries empty_store.file_digests residue_backlog
      residue_snapshot).batches.flatten.map (fun pm => pm.1))) ∧
    (∀ u ∈ digest_files residue_cfg.fs residue_cfg.hash
      (scan_entries empty_store.file_digests residue_backlog residue_snapshot).batches,
      u.path ≠ "a.txt") ∧
    tableGet residue_out.store.file_digests "a.txt" =
      tableGet empty_store.file_digests "a.txt" :=
  undrained_backlog_entries_not_processed residue_cfg empty_store residue_backlog
    residue_snapshot "a.txt" residue_out (by decide) (by decide) rfl (by decide)

end SummaryIndex
